import Mathlib

/-! MIPS datapath simulator (`project.c`)

A shallow embedding of the stage functions of `project.c`.

* A C `unsigned` is a `Nat`; every operation that can leave the 32-bit range
  is reduced modulo `WORD = 2^32` where the C operation wraps.
* A C `char` control signal is a `Char`.
* `unsigned *Mem` and `unsigned *Reg` are pointers indexed without any bound
  check by the C code, so they are total maps `Nat → Nat` from word index to
  word; the memory image proper is the part below `MEMSIZE`.
* An output parameter (`unsigned *ALUresult`, `char *Zero`, ...) becomes an
  argument carrying the old content and a component of the result carrying
  the new content.
-/

namespace MipsSim

/-- Number of values of a C `unsigned` (32 bits). -/
def WORD : Nat := 4294967296

/-- Modelled from the spec: the number of words of the memory image, whose array is declared
outside the sources ("valid byte-address range is [0, 65536) (16384 words)"). -/
def MEMSIZE : Nat := 16384

/-- Value of a 32-bit pattern under the C cast `(int)x`. -/
def toInt32 (x : Nat) : Int :=
  if x % WORD < 2147483648 then ((x % WORD : Nat) : Int) else ((x % WORD : Nat) : Int) - 4294967296

/-- Value of a 16-bit pattern read as a signed two's-complement half-word. -/
def toInt16 (x : Nat) : Int :=
  if x % 65536 < 32768 then ((x % 65536 : Nat) : Int) else ((x % 65536 : Nat) : Int) - 65536

/-- Modelled from the spec: the record `struct_controls`, declared in the header `spimcore.h`
that is not among the sources. Its fields are the nine control signals the spec lists and
`instruction_decode` assigns, each a C `char`. -/
structure struct_controls where
  MemRead : Char
  MemWrite : Char
  RegWrite : Char
  RegDst : Char
  Jump : Char
  Branch : Char
  MemtoReg : Char
  ALUSrc : Char
  ALUOp : Char
  deriving DecidableEq, Repr

/-- Embedding of `ALU`: the result is the pair of the new `*ALUresult` and the new `*Zero`.
The argument `ALUresult` is the old content of `*ALUresult`, kept when no case
of the `switch` matches. -/
def ALU (A B : Nat) (ALUControl : Char) (ALUresult : Nat) : Nat × Char :=
  let r : Nat :=
    match ALUControl with
    | '0' => (A + B) % WORD
    | '1' => (A + (WORD - B % WORD)) % WORD
    | '2' => if A < B then 1 else 0
    | '3' => if toInt32 A < toInt32 B then 1 else 0
    | '4' => A &&& B
    | '5' => A ||| B
    | '6' => (B <<< 16) % WORD
    | _ => ALUresult
  (r, if r = 0 then '1' else '0')

/-- Embedding of `instruction_fetch`: the return code and the new `*instruction`. -/
def instruction_fetch (PC : Nat) (Mem : Nat → Nat) (instruction : Nat) : Nat × Nat :=
  if PC % 4 ≠ 0 ∨ PC > 65536 then (1, instruction)
  else (0, Mem (PC >>> 2))

/-- The seven outputs of `instruction_partition`. -/
structure Fields where
  op : Nat
  r1 : Nat
  r2 : Nat
  r3 : Nat
  funct : Nat
  offset : Nat
  jsec : Nat
  deriving DecidableEq, Repr

/-- Embedding of `instruction_partition`. -/
def instruction_partition (instruction : Nat) : Fields :=
  { op := instruction >>> 26
    r1 := (instruction >>> 21) &&& 0x1F
    r2 := (instruction >>> 16) &&& 0x1F
    r3 := (instruction >>> 11) &&& 0x1F
    funct := instruction &&& 0x3F
    offset := instruction &&& 0xFFFF
    jsec := instruction &&& 0x3FFFFFF }

/-- Embedding of `instruction_decode`: the return code and the new `*controls`. -/
def instruction_decode (op : Nat) (controls : struct_controls) : Nat × struct_controls :=
  if op = 0 then
    (0, { MemRead := '0', MemWrite := '0', RegWrite := '1', RegDst := '1', Jump := '0',
          Branch := '0', MemtoReg := '0', ALUSrc := '0', ALUOp := '7' })
  else if op = 2 then
    (0, { RegDst := '2', Jump := '1', Branch := '0', MemtoReg := '0', MemRead := '0',
          MemWrite := '0', RegWrite := '0', ALUSrc := '1', ALUOp := '0' })
  else if op = 4 then
    (0, { MemRead := '0', MemWrite := '0', RegWrite := '0', RegDst := '2', Jump := '0',
          Branch := '1', MemtoReg := '0', ALUSrc := '0', ALUOp := '1' })
  else if op = 8 then
    (0, { MemRead := '0', MemWrite := '0', RegWrite := '1', RegDst := '0', Jump := '0',
          Branch := '0', MemtoReg := '0', ALUSrc := '1', ALUOp := '0' })
  else if op = 10 then
    (0, { MemRead := '0', MemWrite := '0', RegWrite := '1', RegDst := '0', Jump := '0',
          Branch := '0', MemtoReg := '0', ALUSrc := '1', ALUOp := '2' })
  else if op = 11 then
    (0, { MemRead := '0', MemWrite := '0', RegWrite := '1', RegDst := '0', Jump := '0',
          Branch := '2', MemtoReg := '0', ALUSrc := '1', ALUOp := '3' })
  else if op = 15 then
    (0, { MemRead := '0', MemWrite := '0', RegWrite := '1', RegDst := '0', Jump := '0',
          Branch := '0', MemtoReg := '0', ALUSrc := '1', ALUOp := '6' })
  else if op = 35 then
    (0, { MemRead := '1', MemWrite := '0', RegWrite := '1', RegDst := '0', Jump := '0',
          Branch := '0', MemtoReg := '1', ALUSrc := '1', ALUOp := '0' })
  else if op = 43 then
    (0, { MemRead := '0', MemWrite := '1', RegWrite := '0', RegDst := '2', Jump := '0',
          Branch := '0', MemtoReg := '0', ALUSrc := '1', ALUOp := '0' })
  else (1, controls)

/-- Embedding of `read_register`: the new `*data1` and `*data2`. -/
def read_register (r1 r2 : Nat) (Reg : Nat → Nat) : Nat × Nat :=
  (Reg r1, Reg r2)

/-- Embedding of `sign_extend`: the new `*extended_value`. -/
def sign_extend (offset : Nat) : Nat :=
  if offset >>> 15 = 0 then offset else offset ||| 0xFFFF0000

/-- The return code and the two outputs of `ALU_operations`. -/
structure AluOut where
  ret : Nat
  ALUresult : Nat
  Zero : Char
  deriving DecidableEq, Repr

/-- A call `ALU(A, B, ALUControl, ALUresult, Zero); return 0;` inside `ALU_operations`. -/
def aluReturn0 (A B : Nat) (ALUControl : Char) (ALUresult : Nat) : AluOut :=
  { ret := 0, ALUresult := (ALU A B ALUControl ALUresult).1, Zero := (ALU A B ALUControl ALUresult).2 }

/-- Embedding of `ALU_operations`. The arguments `ALUresult` and `Zero` are the old contents
of the two output parameters, which a faulting call leaves as they are. -/
def ALU_operations (data1 data2 extended_value funct : Nat) (ALUOp ALUSrc : Char)
    (ALUresult : Nat) (Zero : Char) : AluOut :=
  if ALUSrc = '0' then
    if funct = 32 then aluReturn0 data1 data2 '0' ALUresult
    else if funct = 34 then aluReturn0 data1 data2 '1' ALUresult
    else if funct = 36 then aluReturn0 data1 data2 '4' ALUresult
    else if funct = 37 then aluReturn0 data1 data2 '5' ALUresult
    else if funct = 42 then aluReturn0 data1 data2 '2' ALUresult
    else if funct = 43 then aluReturn0 data1 data2 '3' ALUresult
    else if ALUOp = '1' then aluReturn0 data1 data2 '1' ALUresult
    else { ret := 1, ALUresult := ALUresult, Zero := Zero }
  else if ALUSrc = '1' then
    if ALUOp = '0' then aluReturn0 data1 extended_value ALUOp ALUresult
    else if ALUOp = '2' then aluReturn0 data1 extended_value ALUOp ALUresult
    else if ALUOp = '3' then aluReturn0 data1 extended_value ALUOp ALUresult
    else if ALUOp = '6' then aluReturn0 data1 extended_value ALUOp ALUresult
    else { ret := 1, ALUresult := ALUresult, Zero := Zero }
  else { ret := 1, ALUresult := ALUresult, Zero := Zero }

/-- The return code and the two mutated objects of `rw_memory`. -/
structure MemOut where
  ret : Nat
  memdata : Nat
  Mem : Nat → Nat

/-- Embedding of `rw_memory`. The store precedes the load, as in the source. -/
def rw_memory (ALUresult data1 : Nat) (MemWrite MemRead : Char) (memdata : Nat)
    (Mem : Nat → Nat) : MemOut :=
  if ALUresult % 4 ≠ 0 ∧ (MemWrite = '1' ∨ MemRead = '1') then
    { ret := 1, memdata := memdata, Mem := Mem }
  else if ALUresult > 65536 ∧ (MemWrite = '1' ∨ MemRead = '1') then
    { ret := 1, memdata := memdata, Mem := Mem }
  else
    let idx := ALUresult >>> 2
    let Mem1 : Nat → Nat := if MemWrite = '1' then Function.update Mem idx data1 else Mem
    let memdata1 : Nat := if MemRead = '1' then Mem1 idx else memdata
    { ret := 0, memdata := memdata1, Mem := Mem1 }

/-- Embedding of `write_register`: the register file after the call. -/
def write_register (r2 r3 memdata ALUresult : Nat) (RegWrite RegDst MemtoReg : Char)
    (Reg : Nat → Nat) : Nat → Nat :=
  if RegWrite = '1' then
    if MemtoReg = '0' then
      if RegDst = '0' then Function.update Reg r2 ALUresult
      else if RegDst = '1' then Function.update Reg r3 ALUresult
      else Reg
    else if MemtoReg = '1' then
      if RegDst = '0' then Function.update Reg r2 memdata
      else if RegDst = '1' then Function.update Reg r3 memdata
      else Reg
    else Reg
  else Reg

/-- Embedding of `PC_update`: the new `*PC`. -/
def PC_update (jsec extended_value : Nat) (Branch Jump Zero : Char) (PC : Nat) : Nat :=
  if Jump = '1' then ((PC &&& 0xF8000000) + (jsec <<< 2) % WORD) % WORD
  else if Branch = '1' ∧ Zero = '1' then (PC + (extended_value <<< 2) % WORD + 4) % WORD
  else (PC + 4) % WORD

/-- A control record with every signal at `'0'`, used as a concrete starting content. -/
def controls0 : struct_controls :=
  { RegDst := '0', Jump := '0', Branch := '0', MemRead := '0', MemtoReg := '0',
    ALUOp := '0', MemWrite := '0', ALUSrc := '0', RegWrite := '0' }

/-- The architectural state handed to each stage: program counter, register file, memory. -/
structure Machine where
  PC : Nat
  Reg : Nat → Nat
  Mem : Nat → Nat

/-- Modelled from the spec: one instruction step. The driver that calls the stages is outside
the sources; the stages are called in the order of the spec's system overview (fetch,
partition, decode, register read, sign extension, ALU dispatch, memory unit, write-back,
PC update), "a fault simply short-circuits the remaining stages", and the memory unit
"stores the first register operand's value". The output parameters start from fresh
content. The result is the fault code (0 for none) and the state after the step. -/
def Step (s : Machine) : Nat × Machine :=
  let f := instruction_fetch s.PC s.Mem 0
  if f.1 ≠ 0 then (f.1, s)
  else
    let p := instruction_partition f.2
    let d := instruction_decode p.op controls0
    if d.1 ≠ 0 then (d.1, s)
    else
      let c := d.2
      let rd := read_register p.r1 p.r2 s.Reg
      let ext := sign_extend p.offset
      let a := ALU_operations rd.1 rd.2 ext p.funct c.ALUOp c.ALUSrc 0 '0'
      if a.ret ≠ 0 then (a.ret, s)
      else
        let m := rw_memory a.ALUresult rd.1 c.MemWrite c.MemRead 0 s.Mem
        if m.ret ≠ 0 then (m.ret, s)
        else
          (0, { PC := PC_update p.jsec ext c.Branch c.Jump a.Zero s.PC
                Reg := write_register p.r2 p.r3 m.memdata a.ALUresult c.RegWrite c.RegDst
                  c.MemtoReg s.Reg
                Mem := m.Mem })

/-- The function-code table as the specification words it (register-type dispatch): 32 is
Add, 34 Subtract, 36 And, 37 Or, 42 SetLessThan(signed), 43 SetLessThan(unsigned), each given
as the selector character the source uses for that operation (`'0'`, `'1'`, `'4'`, `'5'`,
`'2'`, `'3'`); no other function code has an entry. -/
def spec_funct_table (funct : Nat) : Option Char :=
  if funct = 32 then some '0'
  else if funct = 34 then some '1'
  else if funct = 36 then some '4'
  else if funct = 37 then some '5'
  else if funct = 42 then some '2'
  else if funct = 43 then some '3'
  else none

/-- A register file with 10 in register 5 and 0 elsewhere. -/
def regs5 : Nat → Nat := fun i => if i = 5 then 10 else 0

/-- A memory whose word `0x1000` (byte address `0x4000`) is `addi $6, $5, 3` and whose other
words are 0. -/
def memAddi : Nat → Nat :=
  fun i => if i = 4096 then 8 * 2 ^ 26 + 5 * 2 ^ 21 + 6 * 2 ^ 16 + 3 else 0

/-- The machine at `PC = 0x4000` with register file `regs5` and memory `memAddi`. -/
def machAddi : Machine := { PC := 0x4000, Reg := regs5, Mem := memAddi }

/-! The assembler (`assembler.c`). A C `int` is an `Int`, the mathematical value; the
operations below are used where that value stays in the range of a 32-bit `int`. -/

/-- The record `struct instruction` of the assembler, without the label text and the link to
the next record, which play no part in the encoding. -/
structure struct_instruction where
  op : Int
  r1 : Int
  r2 : Int
  r3 : Int
  funct : Int
  offset : Int
  jsec : Int
  address : Int

/-- The value of `int code` that the loop body of `print_output` builds for one record:
`<<` and `>>` are the shifts of `Int`, `&` is the two's-complement `Int.land`. -/
def print_output_code (inst : struct_instruction) : Int :=
  0x0 + inst.op <<< (26 : Int) + inst.r1 <<< (21 : Int) + inst.r2 <<< (16 : Int) +
    inst.r3 <<< (11 : Int) + Int.land inst.funct 0x3F + Int.land inst.offset 0xFFFF +
    Int.land (inst.jsec >>> (2 : Nat)) 0x3FFFFFF

/-- The 32-bit word that `fprintf(output, "%08x\n", code)` writes for one record: the bit
pattern of `code` read as an `unsigned`. -/
def print_output_word (inst : struct_instruction) : Nat :=
  (print_output_code inst % 4294967296).toNat

/-- Embedding of `print_output`: the words written, one for each record of the list in order. -/
def print_output (inst : List struct_instruction) : List Nat :=
  inst.map print_output_word

/-- Embedding of `calculate_offset`; the C division of `int` truncates toward zero. -/
def calculate_offset (start_address end_address : Int) : Int :=
  (end_address - (start_address + 0x4)).tdiv 4

/-- The record `process_file` fills for `j label` (`op == 2`) at address `address`, with
`jsec` the address of the label. -/
def jump_record (address jsec : Int) : struct_instruction :=
  { op := 2, r1 := 0, r2 := 0, r3 := 0, funct := 0, offset := 0, jsec := jsec,
    address := address }

/-- The record `process_file` fills for `beq r1, r2, label` (`op == 4`) at address `address`,
with `label_address` the address of the label. -/
def beq_record (address r1 r2 label_address : Int) : struct_instruction :=
  { op := 4, r1 := r1, r2 := r2, r3 := 0, funct := 0,
    offset := calculate_offset address label_address, jsec := 0, address := address }

/-! ## Arithmetic helpers -/

theorem and_31_eq_mod (x : Nat) : x &&& 0x1F = x % 32 :=
  Nat.and_pow_two_sub_one_eq_mod x 5

theorem and_63_eq_mod (x : Nat) : x &&& 0x3F = x % 64 :=
  Nat.and_pow_two_sub_one_eq_mod x 6

theorem and_65535_eq_mod (x : Nat) : x &&& 0xFFFF = x % 65536 :=
  Nat.and_pow_two_sub_one_eq_mod x 16

theorem and_jsec_mask_eq_mod (x : Nat) : x &&& 0x3FFFFFF = x % 67108864 :=
  Nat.and_pow_two_sub_one_eq_mod x 26

theorem or_upper_half (x : Nat) (h : x < 65536) : x ||| 0xFFFF0000 = x + 0xFFFF0000 := by
  have key := Nat.mul_add_lt_is_or (show x < 2 ^ 16 from h) 0xFFFF
  rw [Nat.or_comm]
  have e : 2 ^ 16 * 0xFFFF = 0xFFFF0000 := by norm_num
  rw [e] at key
  omega

theorem sign_extend_low (offset : Nat) (h : offset < 32768) : sign_extend offset = offset := by
  have h0 : offset >>> 15 = 0 := by
    rw [Nat.shiftRight_eq_div_pow]
    exact Nat.div_eq_of_lt h
  simp [sign_extend, h0]

theorem sign_extend_high (offset : Nat) (h1 : 32768 ≤ offset) (h2 : offset < 65536) :
    sign_extend offset = offset + 0xFFFF0000 := by
  have h0 : offset >>> 15 ≠ 0 := by
    rw [Nat.shiftRight_eq_div_pow]
    have : 1 ≤ offset / 2 ^ 15 := by
      rw [Nat.le_div_iff_mul_le (by norm_num)]
      omega
    omega
  simp only [sign_extend, h0, if_false]
  exact or_upper_half offset h2

/-- In the branch-equal context, a function code outside the register-type table does reach
the forced subtraction: the call returns 0, `ALUresult` is `(data1 - data2) mod 2^32` and
`Zero` is `'1'` exactly when the operands are equal. -/
theorem ALU_operations_beq_outside_table (data1 data2 extended_value funct ALUresult : Nat)
    (Zero : Char) (hd1 : data1 < WORD) (hd2 : data2 < WORD)
    (hf : funct ≠ 32 ∧ funct ≠ 34 ∧ funct ≠ 36 ∧ funct ≠ 37 ∧ funct ≠ 42 ∧ funct ≠ 43) :
    (ALU_operations data1 data2 extended_value funct '1' '0' ALUresult Zero).ret = 0 ∧
    ((ALU_operations data1 data2 extended_value funct '1' '0' ALUresult Zero).ALUresult : Int) =
      ((data1 : Int) - (data2 : Int)) % 4294967296 ∧
    ((ALU_operations data1 data2 extended_value funct '1' '0' ALUresult Zero).Zero = '1' ↔
      data1 = data2) ∧
    ((ALU_operations data1 data2 extended_value funct '1' '0' ALUresult Zero).Zero = '0' ↔
      data1 ≠ data2) := by
  obtain ⟨f1, f2, f3, f4, f5, f6⟩ := hf
  unfold WORD at hd1 hd2
  have hr : (ALU_operations data1 data2 extended_value funct '1' '0' ALUresult Zero) =
      aluReturn0 data1 data2 '1' ALUresult := by
    simp [ALU_operations, f1, f2, f3, f4, f5, f6]
  have hv : (ALU data1 data2 '1' ALUresult).1 = (data1 + (4294967296 - data2)) % 4294967296 := by
    simp [ALU, WORD, Nat.mod_eq_of_lt hd2]
  have hz : (ALU data1 data2 '1' ALUresult).2 =
      if (data1 + (4294967296 - data2)) % 4294967296 = 0 then '1' else '0' := by
    simp [ALU, WORD, Nat.mod_eq_of_lt hd2]
  rw [hr]
  simp only [aluReturn0, hv, hz]
  refine ⟨trivial, ?_, ?_, ?_⟩
  · omega
  · by_cases h : (data1 + (4294967296 - data2)) % 4294967296 = 0
    · simp only [h, if_true, true_iff]; omega
    · simp only [h, if_false]
      constructor
      · intro hc; exact absurd hc (by decide)
      · intro he; omega
  · by_cases h : (data1 + (4294967296 - data2)) % 4294967296 = 0
    · simp only [h, if_true]
      constructor
      · intro hc; exact absurd hc (by decide)
      · intro he; omega
    · simp only [h, if_false, true_iff]; omega

theorem shiftRight_two_eq_div (x : Nat) : x >>> 2 = x / 4 := by
  rw [Nat.shiftRight_eq_div_pow]

theorem instruction_fetch_aligned (PC : Nat) (Mem : Nat → Nat) (instruction : Nat)
    (h4 : PC % 4 = 0) (hlt : PC ≤ 65536) :
    instruction_fetch PC Mem instruction = (0, Mem (PC / 4)) := by
  have hn : ¬ (PC % 4 ≠ 0 ∨ PC > 65536) := by omega
  simp only [instruction_fetch, hn, if_false, shiftRight_two_eq_div]

theorem rw_memory_store (a v memdata : Nat) (Mem : Nat → Nat) (h4 : a % 4 = 0)
    (hle : a ≤ 65536) :
    rw_memory a v '1' '0' memdata Mem =
      { ret := 0, memdata := memdata, Mem := Function.update Mem (a / 4) v } := by
  have n2 : ¬ (65536 < a) := by omega
  simp [rw_memory, shiftRight_two_eq_div, h4, n2]

theorem rw_memory_load (a d memdata : Nat) (Mem : Nat → Nat) (h4 : a % 4 = 0)
    (hle : a ≤ 65536) :
    rw_memory a d '0' '1' memdata Mem = { ret := 0, memdata := Mem (a / 4), Mem := Mem } := by
  have n2 : ¬ (65536 < a) := by omega
  simp [rw_memory, shiftRight_two_eq_div, h4, n2]

theorem rw_memory_idle (a d memdata : Nat) (Mem : Nat → Nat) :
    rw_memory a d '0' '0' memdata Mem = { ret := 0, memdata := memdata, Mem := Mem } := by
  have n3 : ¬ (('0' : Char) = '1') := by decide
  simp [rw_memory, n3]

theorem ALU_zero_flag (A B : Nat) (ALUControl : Char) (ALUresult : Nat) :
    (ALU A B ALUControl ALUresult).2 =
      if (ALU A B ALUControl ALUresult).1 = 0 then '1' else '0' := by
  simp only [ALU]

theorem ALU_add (A B ALUresult : Nat) :
    ALU A B '0' ALUresult = ((A + B) % WORD, if (A + B) % WORD = 0 then '1' else '0') := by
  simp [ALU]

theorem ALU_sub (A B ALUresult : Nat) :
    ALU A B '1' ALUresult =
      ((A + (WORD - B % WORD)) % WORD,
        if (A + (WORD - B % WORD)) % WORD = 0 then '1' else '0') := by
  simp [ALU]

theorem ALU_and (A B ALUresult : Nat) :
    ALU A B '4' ALUresult = (A &&& B, if A &&& B = 0 then '1' else '0') := by
  simp [ALU]

theorem ALU_or (A B ALUresult : Nat) :
    ALU A B '5' ALUresult = (A ||| B, if A ||| B = 0 then '1' else '0') := by
  simp only [ALU]

theorem ALU_sll (A B ALUresult : Nat) :
    ALU A B '6' ALUresult =
      ((B <<< 16) % WORD, if (B <<< 16) % WORD = 0 then '1' else '0') := by
  simp [ALU]

theorem sll_sign_extend (offset : Nat) (h : offset < 65536) :
    (sign_extend offset <<< 16) % WORD = offset * 65536 := by
  rw [Nat.shiftLeft_eq]
  unfold WORD
  rcases Nat.lt_or_ge offset 32768 with hlt | hge
  · rw [sign_extend_low offset hlt]
    norm_num
    omega
  · rw [sign_extend_high offset hge h]
    norm_num
    omega

theorem ALU_operations_rtype (data1 data2 extended_value funct ALUresult : Nat) (Zero : Char) :
    ALU_operations data1 data2 extended_value funct '7' '0' ALUresult Zero =
      if funct = 32 then aluReturn0 data1 data2 '0' ALUresult
      else if funct = 34 then aluReturn0 data1 data2 '1' ALUresult
      else if funct = 36 then aluReturn0 data1 data2 '4' ALUresult
      else if funct = 37 then aluReturn0 data1 data2 '5' ALUresult
      else if funct = 42 then aluReturn0 data1 data2 '2' ALUresult
      else if funct = 43 then aluReturn0 data1 data2 '3' ALUresult
      else { ret := 1, ALUresult := ALUresult, Zero := Zero } := by
  have c71 : ¬ (('7' : Char) = '1') := by decide
  simp only [ALU_operations, c71, if_true, if_false]

theorem instruction_decode_addi (controls : struct_controls) :
    instruction_decode 8 controls =
      (0, { MemRead := '0', MemWrite := '0', RegWrite := '1', RegDst := '0', Jump := '0',
            Branch := '0', MemtoReg := '0', ALUSrc := '1', ALUOp := '0' }) := by
  simp [instruction_decode]

theorem ALU_operations_imm_add (data1 data2 extended_value funct ALUresult : Nat)
    (Zero : Char) :
    ALU_operations data1 data2 extended_value funct '0' '1' ALUresult Zero =
      aluReturn0 data1 extended_value '0' ALUresult := by
  have c10 : ¬ (('1' : Char) = '0') := by decide
  simp only [ALU_operations, c10, if_true, if_false]

theorem add_sign_extend (x offset : Nat) (h : offset < 65536) :
    (((x + sign_extend offset) % WORD : Nat) : Int) =
      ((x : Int) + toInt16 offset) % 4294967296 := by
  unfold toInt16 WORD
  have a2 : offset % 65536 = offset := Nat.mod_eq_of_lt h
  rw [a2]
  rcases Nat.lt_or_ge offset 32768 with hlt | hge
  · rw [sign_extend_low offset hlt]
    simp only [hlt, if_true]
    omega
  · rw [sign_extend_high offset hge h]
    have n2 : ¬ (offset < 32768) := by omega
    simp only [n2, if_false]
    omega

theorem instruction_partition_itype (op r1 r2 offset : Nat) (h1 : r1 < 32) (h2 : r2 < 32)
    (ho : offset < 65536) :
    (instruction_partition (op * 2 ^ 26 + r1 * 2 ^ 21 + r2 * 2 ^ 16 + offset)).op = op ∧
    (instruction_partition (op * 2 ^ 26 + r1 * 2 ^ 21 + r2 * 2 ^ 16 + offset)).r1 = r1 ∧
    (instruction_partition (op * 2 ^ 26 + r1 * 2 ^ 21 + r2 * 2 ^ 16 + offset)).r2 = r2 ∧
    (instruction_partition (op * 2 ^ 26 + r1 * 2 ^ 21 + r2 * 2 ^ 16 + offset)).offset = offset := by
  simp only [instruction_partition, Nat.shiftRight_eq_div_pow, and_31_eq_mod, and_65535_eq_mod]
  norm_num
  omega

/-- The step of a machine whose current instruction word has opcode 8. -/
theorem Step_opcode8 (s : Machine) (hpc4 : s.PC % 4 = 0) (hpc : s.PC < 65536)
    (hop : (instruction_partition (s.Mem (s.PC / 4))).op = 8) :
    Step s =
      (0, { PC := (s.PC + 4) % WORD
            Reg := Function.update s.Reg (instruction_partition (s.Mem (s.PC / 4))).r2
              ((s.Reg (instruction_partition (s.Mem (s.PC / 4))).r1 +
                sign_extend (instruction_partition (s.Mem (s.PC / 4))).offset) % WORD)
            Mem := s.Mem }) := by
  have hf := instruction_fetch_aligned s.PC s.Mem 0 hpc4 (by omega)
  have c01 : ¬ (('0' : Char) = '1') := by decide
  have c10 : ¬ (('1' : Char) = '0') := by decide
  simp only [Step, hf, hop, instruction_decode_addi, read_register, ALU_operations_imm_add,
    aluReturn0, rw_memory_idle, ALU_add, write_register, PC_update, c01, c10, ne_eq,
    not_true_eq_false, if_true, if_false, false_and]

theorem and_high_mask_mod_four (x : Nat) : (x &&& 0xF8000000) % 4 = 0 := by
  have h : (x &&& 0xF8000000) % 4 = (x &&& 0xF8000000) &&& 3 :=
    (Nat.and_pow_two_sub_one_eq_mod (x &&& 0xF8000000) 2).symm
  rw [h, Nat.and_assoc]
  exact Nat.and_zero x

theorem and_high_mask_of_lt (x : Nat) (h : x < 2 ^ 27) : x &&& 0xF8000000 = 0 := by
  have h1 : x &&& (2 ^ 27 - 1) = x := by
    rw [Nat.and_pow_two_sub_one_eq_mod]
    exact Nat.mod_eq_of_lt h
  rw [← h1, Nat.and_assoc]
  exact Nat.and_zero x

theorem int_land_natCast (m n : Nat) : Int.land (m : Int) (n : Int) = ((m &&& n : Nat) : Int) :=
  rfl

theorem int_shiftRight_natCast (m s : Nat) : (m : Int) >>> s = ((m >>> s : Nat) : Int) :=
  rfl

theorem int_shiftLeft_natCast (m s : Nat) :
    (m : Int) <<< ((s : Nat) : Int) = ((m * 2 ^ s : Nat) : Int) := by
  rw [Int.shiftLeft_eq_mul_pow]
  push_cast
  rfl

theorem print_output_word_jump (address : Int) (t : Nat) (ht : t < 2 ^ 28) :
    print_output_word (jump_record address t) = 2 * 2 ^ 26 + t / 4 := by
  have e26 := int_shiftLeft_natCast 2 26
  have e21 := int_shiftLeft_natCast 0 21
  have e16 := int_shiftLeft_natCast 0 16
  have e11 := int_shiftLeft_natCast 0 11
  have f1 := int_land_natCast 0 0x3F
  have f2 := int_land_natCast 0 0xFFFF
  have f3 := int_land_natCast (t >>> 2) 0x3FFFFFF
  have f4 := int_shiftRight_natCast t 2
  simp only [Nat.cast_ofNat, Nat.cast_zero] at e26 e21 e16 e11 f1 f2 f3
  unfold print_output_word print_output_code jump_record
  simp only
  rw [f4, f3, f2, f1, e26, e21, e16, e11, and_jsec_mask_eq_mod, shiftRight_two_eq_div,
    Nat.zero_and, Nat.zero_and]
  clear f1 f2 f3 f4 e26 e21 e16 e11
  omega

theorem nat_ldiff_65535 (m : Nat) : Nat.ldiff 65535 m = 65535 - m % 65536 := by
  apply Nat.eq_of_testBit_eq
  intro i
  have h1 : (65535 : Nat).testBit i = decide (i < 16) := Nat.testBit_two_pow_sub_one 16 i
  have h2 := Nat.testBit_two_pow_sub_succ (Nat.mod_lt m (show 0 < 2 ^ 16 by norm_num)) i
  have h3 := Nat.testBit_mod_two_pow m 16 i
  have e : 65535 - m % 65536 = 2 ^ 16 - (m % 2 ^ 16 + 1) := by
    norm_num
    omega
  rw [Nat.testBit_ldiff, h1, e, h2, h3]
  cases decide (i < 16) <;> cases m.testBit i <;> rfl

theorem int_land_65535 (k : Int) : Int.land k 0xFFFF = k % 65536 := by
  cases k with
  | ofNat n =>
    have h := int_land_natCast n 0xFFFF
    simp only [Nat.cast_ofNat] at h
    rw [Int.ofNat_eq_coe, h, and_65535_eq_mod]
    omega
  | negSucc m =>
    have h : Int.land (Int.negSucc m) 0xFFFF = ((Nat.ldiff 65535 m : Nat) : Int) := rfl
    rw [h, nat_ldiff_65535, Int.negSucc_emod m (by norm_num)]
    omega

theorem calculate_offset_aligned (s t : Nat) (hs4 : s % 4 = 0) (ht4 : t % 4 = 0) :
    calculate_offset s t = ((t : Int) - s - 4) / 4 ∧
    calculate_offset s t * 4 = (t : Int) - s - 4 := by
  obtain ⟨q, hq⟩ : ∃ q : Int, (t : Int) - (s + 0x4) = 4 * q := ⟨((t : Int) - s - 4) / 4, by omega⟩
  have hc : calculate_offset s t = q := by
    unfold calculate_offset
    rw [hq]
    exact Int.mul_tdiv_cancel_left q (by norm_num)
  rw [hc]
  constructor <;> omega

theorem sign_extend_field (k : Int) (hlo : -32768 ≤ k) (hhi : k ≤ 32767) :
    ((sign_extend (Int.land k 0xFFFF).toNat : Nat) : Int) = k % 4294967296 := by
  rw [int_land_65535]
  rcases Int.lt_or_le k 0 with hneg | hpos
  · have hb1 : 32768 ≤ (k % 65536).toNat := by omega
    have hb2 : (k % 65536).toNat < 65536 := by omega
    rw [sign_extend_high _ hb1 hb2]
    omega
  · have hb : (k % 65536).toNat < 32768 := by omega
    rw [sign_extend_low _ hb]
    omega

theorem print_output_word_beq (s t r1 r2 : Nat) (h1 : r1 < 32) (h2 : r2 < 32) :
    print_output_word (beq_record s r1 r2 t) =
      4 * 2 ^ 26 + r1 * 2 ^ 21 + r2 * 2 ^ 16 +
        (Int.land (calculate_offset s t) 0xFFFF).toNat := by
  have e26 := int_shiftLeft_natCast 4 26
  have e21 := int_shiftLeft_natCast r1 21
  have e16 := int_shiftLeft_natCast r2 16
  have e11 := int_shiftLeft_natCast 0 11
  have f1 := int_land_natCast 0 0x3F
  have f3 := int_land_natCast (0 >>> 2) 0x3FFFFFF
  have f4 := int_shiftRight_natCast 0 2
  simp only [Nat.cast_ofNat, Nat.cast_zero] at e26 e21 e16 e11 f1 f3 f4
  unfold print_output_word print_output_code beq_record
  simp only
  rw [f4, f3, f1, e26, e21, e16, e11, int_land_65535, Nat.zero_and, Nat.zero_shiftRight,
    Nat.zero_and]
  clear f1 f3 f4 e26 e21 e16 e11
  omega

/-! ## Claims -/

/-- C1 (code defect). In the branch-equal context (`ALUSrc = '0'`, `ALUOp = '1'`) the function code
is tested before `ALUOp`: with equal operands 5 and 5 and function code 32, `ALU_operations`
returns 0 with `ALUresult = 10` (an addition) and `Zero = '0'`, whereas function code 34 with
the same operands gives `ALUresult = 0` and `Zero = '1'`. The function code does influence
the result. -/
theorem ALU_operations_beq_depends_on_funct :
    ALU_operations 5 5 0 32 '1' '0' 0 '0' = { ret := 0, ALUresult := 10, Zero := '0' } ∧
    ALU_operations 5 5 0 34 '1' '0' 0 '0' = { ret := 0, ALUresult := 0, Zero := '1' } := by
  decide

/-- C2 (code defect). With `Jump = '1'`, `PC = 0x08000000` and jump field 0, `PC_update` leaves
`PC = 0x08000000`: bit 27 of the old PC survives the mask `0xF8000000`, whereas keeping
only the top 4 bits gives `(PC & 0xF0000000) | (jsec << 2) = 0`. -/
theorem PC_update_jump_keeps_bit27 :
    PC_update 0 0 '0' '1' '0' 0x08000000 = 0x08000000 ∧
    (0x08000000 &&& 0xF0000000) ||| (0 <<< 2) = 0 ∧
    PC_update 0 0 '0' '1' '0' 0x08000000 ≠ (0x08000000 &&& 0xF0000000) ||| (0 <<< 2) := by
  decide

/-- C3 (code defect). At `PC = 65536`, which is a multiple of 4 and not below 65536,
`instruction_fetch` returns 0 for every memory and sets the instruction to the word at
index `16384 = MEMSIZE`, one past the last word of the memory image. -/
theorem instruction_fetch_accepts_65536 (Mem : Nat → Nat) (instruction : Nat) :
    instruction_fetch 65536 Mem instruction = (0, Mem MEMSIZE) := by
  simp [instruction_fetch, MEMSIZE]

/-- C4 (code defect). At `ALUresult = 65536` with `MemWrite = '1'`, `rw_memory` returns 0 and
stores `data1` at word index `16384 = MEMSIZE`; with `MemRead = '1'` it returns 0 and loads
the word at that index. The address 65536 is not below 65536, so a fault was due. -/
theorem rw_memory_accepts_65536 (data1 memdata : Nat) (Mem : Nat → Nat) :
    (rw_memory 65536 data1 '1' '0' memdata Mem).ret = 0 ∧
    (rw_memory 65536 data1 '1' '0' memdata Mem).Mem MEMSIZE = data1 ∧
    (rw_memory 65536 data1 '0' '1' memdata Mem).ret = 0 ∧
    (rw_memory 65536 data1 '0' '1' memdata Mem).memdata = Mem MEMSIZE := by
  simp [rw_memory, MEMSIZE]

/-- C5 (code defect). With selector `'2'` the comparison is unsigned: for `A = 0xFFFFFFFF`
(signed value -1) and `B = 0`, `ALU` gives `ALUresult = 0` and `Zero = '1'` although
`A < B` under the signed reading. -/
theorem ALU_slt_is_unsigned (r : Nat) :
    ALU 0xFFFFFFFF 0 '2' r = (0, '1') ∧ toInt32 0xFFFFFFFF = -1 ∧ toInt32 0 = 0 ∧
    toInt32 0xFFFFFFFF < toInt32 0 := by
  refine ⟨?_, by decide, by decide, by decide⟩
  simp [ALU]

/-- C6 (code defect). With selector `'3'` the comparison is signed: for `A = 0` and
`B = 0xFFFFFFFF` (signed value -1), `ALU` gives `ALUresult = 0` and `Zero = '1'` although
`A < B` under the unsigned reading. -/
theorem ALU_sltu_is_signed (r : Nat) :
    ALU 0 0xFFFFFFFF '3' r = (0, '1') ∧ (0 : Nat) < 0xFFFFFFFF := by
  refine ⟨?_, by decide⟩
  have h : ¬ (toInt32 0 < toInt32 0xFFFFFFFF) := by decide
  simp [ALU, h]

/-- C7. `instruction_decode` returns 0 exactly for the opcodes 0, 2, 4, 8, 10, 11, 15, 35, 43;
for every other opcode it returns a non-zero code and the control record is left exactly as
it was. -/
theorem instruction_decode_accepts_iff (op : Nat) (controls : struct_controls) :
    ((instruction_decode op controls).1 = 0 ↔
      (op = 0 ∨ op = 2 ∨ op = 4 ∨ op = 8 ∨ op = 10 ∨ op = 11 ∨ op = 15 ∨ op = 35 ∨ op = 43)) ∧
    (¬ (op = 0 ∨ op = 2 ∨ op = 4 ∨ op = 8 ∨ op = 10 ∨ op = 11 ∨ op = 15 ∨ op = 35 ∨ op = 43) →
      (instruction_decode op controls).1 ≠ 0 ∧ (instruction_decode op controls).2 = controls) := by
  unfold instruction_decode
  split_ifs <;> simp_all

/-- Witness for C7: opcode 99 is rejected and the record `controls0` is returned untouched. -/
theorem instruction_decode_accepts_iff_witness :
    (instruction_decode 99 controls0).1 ≠ 0 ∧ (instruction_decode 99 controls0).2 = controls0 :=
  (instruction_decode_accepts_iff 99 controls0).2 (by decide)

/-- C8. Every control vector produced by `instruction_decode` (return code 0) is well formed:
when `RegWrite` is `'1'` then `RegDst` is `'0'` or `'1'` and is not `'2'`, and `MemRead` and
`MemWrite` are not both `'1'`. -/
theorem instruction_decode_well_formed (op : Nat) (controls : struct_controls)
    (h : (instruction_decode op controls).1 = 0) :
    ((instruction_decode op controls).2.RegWrite = '1' →
      ((instruction_decode op controls).2.RegDst = '0' ∨
        (instruction_decode op controls).2.RegDst = '1') ∧
      (instruction_decode op controls).2.RegDst ≠ '2') ∧
    ¬ ((instruction_decode op controls).2.MemRead = '1' ∧
        (instruction_decode op controls).2.MemWrite = '1') := by
  unfold instruction_decode at h ⊢
  split_ifs at h ⊢ <;> simp_all

/-- Witness for C8: the control vector of load-word (opcode 35), decoded over a record whose
content was store-like (`RegDst = '2'`, `MemWrite = '1'`, `RegWrite = '1'`). -/
theorem instruction_decode_well_formed_witness :
    (instruction_decode 35 { controls0 with RegDst := '2', MemWrite := '1', RegWrite := '1' }).1 = 0 ∧
    (((instruction_decode 35
        { controls0 with RegDst := '2', MemWrite := '1', RegWrite := '1' }).2.RegWrite = '1' →
      ((instruction_decode 35
          { controls0 with RegDst := '2', MemWrite := '1', RegWrite := '1' }).2.RegDst = '0' ∨
        (instruction_decode 35
          { controls0 with RegDst := '2', MemWrite := '1', RegWrite := '1' }).2.RegDst = '1') ∧
      (instruction_decode 35
        { controls0 with RegDst := '2', MemWrite := '1', RegWrite := '1' }).2.RegDst ≠ '2') ∧
    ¬ ((instruction_decode 35
          { controls0 with RegDst := '2', MemWrite := '1', RegWrite := '1' }).2.MemRead = '1' ∧
        (instruction_decode 35
          { controls0 with RegDst := '2', MemWrite := '1', RegWrite := '1' }).2.MemWrite = '1')) :=
  ⟨by decide, instruction_decode_well_formed 35 _ (by decide)⟩

/-- C9. `instruction_partition` inverts field packing for field values within their widths:
the register-type word gives back `op, r1, r2, r3, funct`, the immediate-type word gives back
`op, r1, r2, offset`, and the jump-type word gives back `op, jsec`. -/
theorem instruction_partition_pack (op r1 r2 r3 funct offset jsec : Nat)
    (_hop : op < 64) (h1 : r1 < 32) (h2 : r2 < 32) (h3 : r3 < 32) (hf : funct < 64)
    (ho : offset < 65536) (hj : jsec < 67108864) :
    ((instruction_partition (op * 2 ^ 26 + r1 * 2 ^ 21 + r2 * 2 ^ 16 + r3 * 2 ^ 11 + funct)).op = op ∧
      (instruction_partition (op * 2 ^ 26 + r1 * 2 ^ 21 + r2 * 2 ^ 16 + r3 * 2 ^ 11 + funct)).r1 = r1 ∧
      (instruction_partition (op * 2 ^ 26 + r1 * 2 ^ 21 + r2 * 2 ^ 16 + r3 * 2 ^ 11 + funct)).r2 = r2 ∧
      (instruction_partition (op * 2 ^ 26 + r1 * 2 ^ 21 + r2 * 2 ^ 16 + r3 * 2 ^ 11 + funct)).r3 = r3 ∧
      (instruction_partition
        (op * 2 ^ 26 + r1 * 2 ^ 21 + r2 * 2 ^ 16 + r3 * 2 ^ 11 + funct)).funct = funct) ∧
    ((instruction_partition (op * 2 ^ 26 + r1 * 2 ^ 21 + r2 * 2 ^ 16 + offset)).op = op ∧
      (instruction_partition (op * 2 ^ 26 + r1 * 2 ^ 21 + r2 * 2 ^ 16 + offset)).r1 = r1 ∧
      (instruction_partition (op * 2 ^ 26 + r1 * 2 ^ 21 + r2 * 2 ^ 16 + offset)).r2 = r2 ∧
      (instruction_partition (op * 2 ^ 26 + r1 * 2 ^ 21 + r2 * 2 ^ 16 + offset)).offset = offset) ∧
    ((instruction_partition (op * 2 ^ 26 + jsec)).op = op ∧
      (instruction_partition (op * 2 ^ 26 + jsec)).jsec = jsec) := by
  simp only [instruction_partition, Nat.shiftRight_eq_div_pow, and_31_eq_mod, and_63_eq_mod,
    and_65535_eq_mod, and_jsec_mask_eq_mod]
  norm_num
  omega

/-- Witness for C9: `add $3, $1, $2` (fields 0, 1, 2, 3, 32), offset `0xFFFF` and jump field
`0x1000`. -/
theorem instruction_partition_pack_witness :
    ((instruction_partition (0 * 2 ^ 26 + 1 * 2 ^ 21 + 2 * 2 ^ 16 + 3 * 2 ^ 11 + 32)).op = 0 ∧
      (instruction_partition (0 * 2 ^ 26 + 1 * 2 ^ 21 + 2 * 2 ^ 16 + 3 * 2 ^ 11 + 32)).r1 = 1 ∧
      (instruction_partition (0 * 2 ^ 26 + 1 * 2 ^ 21 + 2 * 2 ^ 16 + 3 * 2 ^ 11 + 32)).r2 = 2 ∧
      (instruction_partition (0 * 2 ^ 26 + 1 * 2 ^ 21 + 2 * 2 ^ 16 + 3 * 2 ^ 11 + 32)).r3 = 3 ∧
      (instruction_partition (0 * 2 ^ 26 + 1 * 2 ^ 21 + 2 * 2 ^ 16 + 3 * 2 ^ 11 + 32)).funct = 32) ∧
    ((instruction_partition (0 * 2 ^ 26 + 1 * 2 ^ 21 + 2 * 2 ^ 16 + 65535)).op = 0 ∧
      (instruction_partition (0 * 2 ^ 26 + 1 * 2 ^ 21 + 2 * 2 ^ 16 + 65535)).r1 = 1 ∧
      (instruction_partition (0 * 2 ^ 26 + 1 * 2 ^ 21 + 2 * 2 ^ 16 + 65535)).r2 = 2 ∧
      (instruction_partition (0 * 2 ^ 26 + 1 * 2 ^ 21 + 2 * 2 ^ 16 + 65535)).offset = 65535) ∧
    ((instruction_partition (0 * 2 ^ 26 + 4096)).op = 0 ∧
      (instruction_partition (0 * 2 ^ 26 + 4096)).jsec = 4096) :=
  instruction_partition_pack 0 1 2 3 32 65535 4096 (by decide) (by decide) (by decide)
    (by decide) (by decide) (by decide) (by decide)

/-- C10. For a 16-bit offset, `sign_extend` returns the offset itself when bit 15 is 0 and
`offset + 0xFFFF0000` when bit 15 is 1; the result read as a signed 32-bit integer equals the
offset read as a signed 16-bit integer, its low 16 bits are the offset, and it is a 32-bit
value. -/
theorem sign_extend_spec (offset : Nat) (h : offset < 65536) :
    (offset.testBit 15 = false → sign_extend offset = offset) ∧
    (offset.testBit 15 = true → sign_extend offset = offset + 0xFFFF0000) ∧
    toInt32 (sign_extend offset) = toInt16 offset ∧
    sign_extend offset % 65536 = offset ∧
    sign_extend offset < WORD := by
  have hbit : offset.testBit 15 = decide (32768 ≤ offset) := by
    rw [Nat.testBit_to_div_mod]
    congr 1
    apply propext
    constructor <;> intro hh <;> omega
  rcases Nat.lt_or_ge offset 32768 with hlt | hge
  · have e := sign_extend_low offset hlt
    refine ⟨fun _ => e, ?_, ?_, ?_, ?_⟩
    · intro hb
      rw [hbit] at hb
      simp at hb
      omega
    · rw [e]
      unfold toInt32 toInt16 WORD
      have a1 : offset % 4294967296 = offset := Nat.mod_eq_of_lt (by omega)
      have a2 : offset % 65536 = offset := Nat.mod_eq_of_lt h
      rw [a1, a2]
      simp [hlt, show offset < 2147483648 by omega]
    · rw [e]; exact Nat.mod_eq_of_lt h
    · rw [e]; unfold WORD; omega
  · have e := sign_extend_high offset hge h
    refine ⟨?_, fun _ => e, ?_, ?_, ?_⟩
    · intro hb
      rw [hbit] at hb
      simp at hb
      omega
    · rw [e]
      unfold toInt32 toInt16 WORD
      have a1 : (offset + 0xFFFF0000) % 4294967296 = offset + 0xFFFF0000 :=
        Nat.mod_eq_of_lt (by omega)
      have a2 : offset % 65536 = offset := Nat.mod_eq_of_lt h
      rw [a1, a2]
      have n1 : ¬ (offset + 0xFFFF0000 < 2147483648) := by omega
      have n2 : ¬ (offset < 32768) := by omega
      simp only [n1, n2, if_false]
      push_cast
      omega
    · rw [e]; omega
    · rw [e]; unfold WORD; omega

/-- Witness for C10: the offsets `0x0001` and `0xFFFF` of the specification's examples. -/
theorem sign_extend_spec_witness :
    sign_extend 0x0001 = 0x00000001 ∧ sign_extend 0xFFFF = 0xFFFFFFFF :=
  ⟨(sign_extend_spec 0x0001 (by decide)).1 (by decide),
   (sign_extend_spec 0xFFFF (by decide)).2.1 (by decide)⟩

/-- C11. End-to-end add-immediate: when the PC is a multiple of 4 below 65536 and the word at
`PC / 4` is opcode 8 packed with fields `r1`, `r2` and a 16-bit `offset`, one step raises no
fault, leaves in register `r2` the value `(Reg[r1] + signed offset) mod 2^32`, leaves every
other register and the whole memory unchanged, and leaves `PC = old PC + 4`. -/
theorem Step_addi (s : Machine) (r1 r2 offset : Nat) (hpc4 : s.PC % 4 = 0)
    (hpc : s.PC < 65536) (h1 : r1 < 32) (h2 : r2 < 32) (ho : offset < 65536)
    (hw : s.Mem (s.PC / 4) = 8 * 2 ^ 26 + r1 * 2 ^ 21 + r2 * 2 ^ 16 + offset) :
    (Step s).1 = 0 ∧
    (((Step s).2.Reg r2 : Nat) : Int) = ((s.Reg r1 : Int) + toInt16 offset) % 2 ^ 32 ∧
    (Step s).2.Reg r2 = (s.Reg r1 + sign_extend offset) % 2 ^ 32 ∧
    (∀ i, i ≠ r2 → (Step s).2.Reg i = s.Reg i) ∧
    (Step s).2.Mem = s.Mem ∧
    (Step s).2.PC = s.PC + 4 := by
  obtain ⟨p0, p1, p2, p3⟩ := instruction_partition_itype 8 r1 r2 offset h1 h2 ho
  rw [← hw] at p0 p1 p2 p3
  rw [Step_opcode8 s hpc4 hpc p0, p1, p2, p3]
  refine ⟨rfl, ?_, ?_, ?_, rfl, ?_⟩
  · show (((Function.update s.Reg r2 ((s.Reg r1 + sign_extend offset) % WORD) r2 : Nat)) : Int) = _
    rw [Function.update_same]
    exact add_sign_extend (s.Reg r1) offset ho
  · exact Function.update_same _ _ _
  · intro i hi
    exact Function.update_noteq hi _ _
  · show (s.PC + 4) % WORD = s.PC + 4
    unfold WORD
    omega

/-- Witness for C11: `addi $6, $5, 3` at `PC = 0x4000` with 10 in register 5 leaves 13 in
register 6 and moves the PC to `0x4004` without a fault. -/
theorem Step_addi_witness :
    (Step machAddi).1 = 0 ∧ (Step machAddi).2.Reg 6 = 13 ∧ (Step machAddi).2.PC = 0x4004 :=
  have h := Step_addi machAddi 5 6 3 (by decide) (by decide) (by decide) (by decide)
    (by decide) (by decide)
  ⟨h.1, h.2.2.1, h.2.2.2.2.2⟩

/-- C12. Store then load through `rw_memory`: for a word-aligned address `a` below 65536 the
store of `v` returns 0, a following load at `a` returns 0 with `memdata = v`, a following load
at another word-aligned address `b` below 65536 returns 0 with the word that was at `b` before
the store, and the store changes the word `a / 4` only. -/
theorem rw_memory_store_load (Mem : Nat → Nat) (a b v d md0 md1 md2 : Nat)
    (ha4 : a % 4 = 0) (ha : a < 65536) (hb4 : b % 4 = 0) (hb : b < 65536) (hab : b ≠ a) :
    (rw_memory a v '1' '0' md0 Mem).ret = 0 ∧
    (rw_memory a d '0' '1' md1 (rw_memory a v '1' '0' md0 Mem).Mem).ret = 0 ∧
    (rw_memory a d '0' '1' md1 (rw_memory a v '1' '0' md0 Mem).Mem).memdata = v ∧
    (rw_memory b d '0' '1' md2 (rw_memory a v '1' '0' md0 Mem).Mem).ret = 0 ∧
    (rw_memory b d '0' '1' md2 (rw_memory a v '1' '0' md0 Mem).Mem).memdata = Mem (b / 4) ∧
    (rw_memory a v '1' '0' md0 Mem).Mem (a / 4) = v ∧
    (∀ i, i ≠ a / 4 → (rw_memory a v '1' '0' md0 Mem).Mem i = Mem i) := by
  have hne : b / 4 ≠ a / 4 := by omega
  rw [rw_memory_store a v md0 Mem ha4 (by omega)]
  simp only
  rw [rw_memory_load a d md1 _ ha4 (by omega), rw_memory_load b d md2 _ hb4 (by omega)]
  refine ⟨?_, ?_, ?_, ?_, ?_, ?_, ?_⟩
  · trivial
  · rfl
  · exact Function.update_same _ _ _
  · rfl
  · exact Function.update_noteq hne _ _
  · exact Function.update_same _ _ _
  · intro i hi
    exact Function.update_noteq hi _ _

/-- Witness for C12: over a memory holding `i + 1` at word `i`, store 7 at byte address 8,
then load at 8 and at 12. -/
theorem rw_memory_store_load_witness :
    (rw_memory 8 7 '1' '0' 0 (fun i => i + 1)).ret = 0 ∧
    (rw_memory 8 0 '0' '1' 0 (rw_memory 8 7 '1' '0' 0 (fun i => i + 1)).Mem).memdata = 7 ∧
    (rw_memory 12 0 '0' '1' 0 (rw_memory 8 7 '1' '0' 0 (fun i => i + 1)).Mem).memdata = 4 :=
  have h := rw_memory_store_load (fun i => i + 1) 8 12 7 0 0 0 0 (by decide) (by decide)
    (by decide) (by decide) (by decide)
  ⟨h.1, h.2.2.1, h.2.2.2.2.1⟩

/-- C13. With `RegWrite = '1'`, `RegDst` in `'0'`, `'1'` and `MemtoReg` in `'0'`, `'1'`,
`write_register` puts the value selected by `MemtoReg` (`'0'`: `ALUresult`, `'1'`: `memdata`)
in the register selected by `RegDst` (`'0'`: `r2`, `'1'`: `r3`), index 0 included, and leaves
every other register unchanged; with `RegWrite` other than `'1'`, or `RegDst = '2'`, the
register file is unchanged. -/
theorem write_register_frame (r2 r3 memdata ALUresult : Nat) (RegWrite RegDst MemtoReg : Char)
    (Reg : Nat → Nat) :
    (RegWrite = '1' → (RegDst = '0' ∨ RegDst = '1') → (MemtoReg = '0' ∨ MemtoReg = '1') →
      write_register r2 r3 memdata ALUresult RegWrite RegDst MemtoReg Reg
          (if RegDst = '0' then r2 else r3) = (if MemtoReg = '0' then ALUresult else memdata) ∧
      ∀ i, i ≠ (if RegDst = '0' then r2 else r3) →
        write_register r2 r3 memdata ALUresult RegWrite RegDst MemtoReg Reg i = Reg i) ∧
    (RegWrite ≠ '1' ∨ RegDst = '2' →
      write_register r2 r3 memdata ALUresult RegWrite RegDst MemtoReg Reg = Reg) := by
  have c01 : ¬ (('1' : Char) = '0') := by decide
  have c21 : ¬ (('2' : Char) = '1') := by decide
  have c20 : ¬ (('2' : Char) = '0') := by decide
  constructor
  · intro hw hd hm
    subst hw
    rcases hd with hd | hd <;> rcases hm with hm | hm <;> subst hd <;> subst hm <;>
      simp only [write_register, c01, if_true, if_false] <;>
      exact ⟨Function.update_same _ _ _, fun i hi => Function.update_noteq hi _ _⟩
  · intro h
    rcases h with h | h
    · simp [write_register, h]
    · subst h
      unfold write_register
      split_ifs <;> rfl

/-- Witness for C13: register 0 receives the ALU result 9 (`RegDst = '0'`, `r2 = 0`) and
register 5 keeps its content. -/
theorem write_register_frame_witness :
    write_register 0 3 4 9 '1' '0' '0' regs5 0 = 9 ∧
    write_register 0 3 4 9 '1' '0' '0' regs5 5 = regs5 5 :=
  have h := (write_register_frame 0 3 4 9 '1' '0' '0' regs5).1 rfl (Or.inl rfl) (Or.inl rfl)
  ⟨h.1, h.2 5 (by decide)⟩

/-- C14. With `Jump = '0'`, `PC_update` sets the PC to `(PC + 4 + (extended_value << 2)) mod 2^32`
when `Branch = '1'` and `Zero = '1'`, and to `(PC + 4) mod 2^32` in every other case; with
`PC = 0x4000` and offset 2 the taken branch gives `0x400C`. -/
theorem PC_update_no_jump (jsec extended_value PC : Nat) (Branch Zero : Char) :
    PC_update jsec extended_value Branch '0' Zero PC =
      (if Branch = '1' ∧ Zero = '1' then (PC + 4 + (extended_value <<< 2)) % 2 ^ 32
       else (PC + 4) % 2 ^ 32) ∧
    PC_update 0 2 '1' '0' '1' 0x4000 = 0x400C := by
  have c01 : ¬ (('0' : Char) = '1') := by decide
  refine ⟨?_, by decide⟩
  simp only [PC_update, c01, if_false, WORD, Nat.shiftLeft_eq]
  split_ifs
  · norm_num
    omega
  · norm_num

/-- C15. `ALU_operations` faults exactly outside the operation table: with `ALUSrc = '0'` and
`ALUOp = '7'` it returns a non-zero code if and only if `funct` is none of 32, 34, 36, 37, 42,
43; with `ALUSrc = '1'` it returns a non-zero code if and only if `ALUOp` is none of `'0'`,
`'2'`, `'3'`, `'6'`; and whenever it returns a non-zero code, for any signals, the `ALUresult`
and `Zero` outputs keep their old content. -/
theorem ALU_operations_fault_iff (data1 data2 extended_value funct ALUresult : Nat)
    (ALUOp ALUSrc Zero : Char) :
    ((ALU_operations data1 data2 extended_value funct '7' '0' ALUresult Zero).ret ≠ 0 ↔
      ¬ (funct = 32 ∨ funct = 34 ∨ funct = 36 ∨ funct = 37 ∨ funct = 42 ∨ funct = 43)) ∧
    ((ALU_operations data1 data2 extended_value funct ALUOp '1' ALUresult Zero).ret ≠ 0 ↔
      ¬ (ALUOp = '0' ∨ ALUOp = '2' ∨ ALUOp = '3' ∨ ALUOp = '6')) ∧
    ((ALU_operations data1 data2 extended_value funct ALUOp ALUSrc ALUresult Zero).ret ≠ 0 →
      (ALU_operations data1 data2 extended_value funct ALUOp ALUSrc ALUresult Zero).ALUresult =
          ALUresult ∧
      (ALU_operations data1 data2 extended_value funct ALUOp ALUSrc ALUresult Zero).Zero =
          Zero) := by
  have c71 : ¬ (('7' : Char) = '1') := by decide
  have c10 : ¬ (('1' : Char) = '0') := by decide
  refine ⟨?_, ?_, ?_⟩
  · simp only [ALU_operations, c71, if_true, if_false]
    split_ifs <;> simp_all [aluReturn0]
  · simp only [ALU_operations, c10, if_true, if_false]
    split_ifs <;> simp_all [aluReturn0]
  · unfold ALU_operations
    split_ifs <;> simp [aluReturn0]

/-- Witness for C15: function code 33 under register-type dispatch faults and leaves the
outputs 77 and `'x'` in place. -/
theorem ALU_operations_fault_iff_witness :
    (ALU_operations 1 2 3 33 '7' '0' 77 'x').ret ≠ 0 ∧
    (ALU_operations 1 2 3 33 '7' '0' 77 'x').ALUresult = 77 ∧
    (ALU_operations 1 2 3 33 '7' '0' 77 'x').Zero = 'x' :=
  have h := ALU_operations_fault_iff 1 2 3 33 77 '7' '0' 'x'
  ⟨h.1.2 (by decide), h.2.2 (h.1.2 (by decide))⟩

/-- C16. For a register-type instruction (`ALUSrc = '0'`, `ALUOp = '7'`) whose function code
has the selector `sel` in the specification's table, `ALU_operations` returns 0 with exactly
the result and `Zero` of `ALU data1 data2 sel`, whatever `extended_value` is; function codes
32, 34, 36, 37 give `(data1 + data2) mod 2^32`, `(data1 - data2) mod 2^32`, `data1 AND data2`
and `data1 OR data2`. -/
theorem ALU_operations_rtype_refines (data1 data2 extended_value funct ALUresult : Nat)
    (Zero sel : Char) (hsel : spec_funct_table funct = some sel) :
    ALU_operations data1 data2 extended_value funct '7' '0' ALUresult Zero =
      { ret := 0, ALUresult := (ALU data1 data2 sel ALUresult).1,
        Zero := (ALU data1 data2 sel ALUresult).2 } ∧
    (∀ ext, ALU_operations data1 data2 ext funct '7' '0' ALUresult Zero =
      ALU_operations data1 data2 extended_value funct '7' '0' ALUresult Zero) ∧
    (funct = 32 →
      (ALU_operations data1 data2 extended_value funct '7' '0' ALUresult Zero).ALUresult =
        (data1 + data2) % 2 ^ 32) ∧
    (funct = 34 →
      ((ALU_operations data1 data2 extended_value funct '7' '0' ALUresult Zero).ALUresult : Int) =
        ((data1 : Int) - (data2 : Int)) % 2 ^ 32) ∧
    (funct = 36 →
      (ALU_operations data1 data2 extended_value funct '7' '0' ALUresult Zero).ALUresult =
        data1 &&& data2) ∧
    (funct = 37 →
      (ALU_operations data1 data2 extended_value funct '7' '0' ALUresult Zero).ALUresult =
        data1 ||| data2) := by
  have key : ∀ ext, ALU_operations data1 data2 ext funct '7' '0' ALUresult Zero =
      { ret := 0, ALUresult := (ALU data1 data2 sel ALUresult).1,
        Zero := (ALU data1 data2 sel ALUresult).2 } := by
    intro ext
    rw [ALU_operations_rtype]
    unfold spec_funct_table at hsel
    split_ifs at hsel ⊢ <;> (injection hsel with hsel; subst hsel; rfl)
  refine ⟨key extended_value, fun ext => (key ext).trans (key extended_value).symm, ?_, ?_, ?_, ?_⟩
  · intro hf
    subst hf
    have hs : sel = '0' := by simpa [spec_funct_table] using hsel.symm
    subst hs
    rw [key, ALU_add]
    rfl
  · intro hf
    subst hf
    have hs : sel = '1' := by simpa [spec_funct_table] using hsel.symm
    subst hs
    rw [key, ALU_sub]
    simp only [WORD]
    omega
  · intro hf
    subst hf
    have hs : sel = '4' := by simpa [spec_funct_table] using hsel.symm
    subst hs
    rw [key, ALU_and]
  · intro hf
    subst hf
    have hs : sel = '5' := by simpa [spec_funct_table] using hsel.symm
    subst hs
    rw [key, ALU_or]

/-- Witness for C16: `sub` (function code 34, selector `'1'`) on 3 and 5 gives `0xFFFFFFFE`. -/
theorem ALU_operations_rtype_refines_witness :
    ALU_operations 3 5 9 34 '7' '0' 0 '0' =
      { ret := 0, ALUresult := (ALU 3 5 '1' 0).1, Zero := (ALU 3 5 '1' 0).2 } ∧
    (ALU 3 5 '1' 0).1 = 0xFFFFFFFE :=
  ⟨(ALU_operations_rtype_refines 3 5 9 34 0 '0' '1' (by decide)).1, by decide⟩

/-- C17. After `ALU` returns, for every pair of operands and every selector (in particular
`'0'` to `'6'`), `Zero` is `'1'` if and only if `ALUresult` is 0, and is `'0'` if and only if
`ALUresult` is not 0. -/
theorem ALU_zero_iff (A B : Nat) (ALUControl : Char) (ALUresult : Nat) :
    ((ALU A B ALUControl ALUresult).2 = '1' ↔ (ALU A B ALUControl ALUresult).1 = 0) ∧
    ((ALU A B ALUControl ALUresult).2 = '0' ↔ (ALU A B ALUControl ALUresult).1 ≠ 0) := by
  have hz := ALU_zero_flag A B ALUControl ALUresult
  by_cases h : (ALU A B ALUControl ALUresult).1 = 0
  · rw [if_pos h] at hz
    refine ⟨⟨fun _ => h, fun _ => hz⟩, ⟨fun hc => ?_, fun hc => absurd h hc⟩⟩
    rw [hz] at hc
    exact absurd hc (by decide)
  · rw [if_neg h] at hz
    refine ⟨⟨fun hc => ?_, fun hc => absurd hc h⟩, ⟨fun _ => h, fun _ => hz⟩⟩
    rw [hz] at hc
    exact absurd hc (by decide)

/-- C18. Load-upper-immediate: for a 16-bit offset and every `A`, `sign_extend` followed by
`ALU` with selector `'6'` gives `ALUresult = offset * 2^16` (upper half-word the offset, lower
half-word zero), the same as without the sign extension, and `Zero = '1'` exactly for offset
0; `ALU_operations` with `ALUSrc = '1'` and `ALUOp = '6'` returns 0 with these outputs. -/
theorem lui_upper_half (offset A data2 funct ALUresult : Nat) (Zero : Char)
    (h : offset < 65536) :
    (ALU A (sign_extend offset) '6' ALUresult).1 = offset * 2 ^ 16 ∧
    (ALU A (sign_extend offset) '6' ALUresult).1 / 2 ^ 16 = offset ∧
    (ALU A (sign_extend offset) '6' ALUresult).1 % 2 ^ 16 = 0 ∧
    (ALU A (sign_extend offset) '6' ALUresult).1 = (ALU A offset '6' ALUresult).1 ∧
    ((ALU A (sign_extend offset) '6' ALUresult).2 = '1' ↔ offset = 0) ∧
    ALU_operations A data2 (sign_extend offset) funct '6' '1' ALUresult Zero =
      { ret := 0, ALUresult := offset * 2 ^ 16, Zero := if offset = 0 then '1' else '0' } := by
  have hv : (ALU A (sign_extend offset) '6' ALUresult).1 = offset * 65536 := by
    rw [ALU_sll]
    exact sll_sign_extend offset h
  have hz : (ALU A (sign_extend offset) '6' ALUresult).2 = if offset = 0 then '1' else '0' := by
    rw [ALU_zero_flag, hv]
    by_cases h0 : offset = 0
    · simp [h0]
    · have : offset * 65536 ≠ 0 := by omega
      simp [h0, this]
  have hraw : (ALU A offset '6' ALUresult).1 = offset * 65536 := by
    rw [ALU_sll, Nat.shiftLeft_eq]
    unfold WORD
    norm_num
    omega
  have c : ¬ (('6' : Char) = '0') ∧ ¬ (('6' : Char) = '2') ∧ ¬ (('6' : Char) = '3') ∧
      ¬ (('1' : Char) = '0') := by decide
  refine ⟨by rw [hv]; norm_num, by rw [hv]; omega, by rw [hv]; omega, by rw [hv, hraw], ?_, ?_⟩
  · rw [hz]
    by_cases h0 : offset = 0
    · simp [h0]
    · simp only [h0, if_false, iff_false]
      decide
  · simp only [ALU_operations, c.1, c.2.1, c.2.2.1, c.2.2.2, if_true, if_false, aluReturn0, hv, hz]
    norm_num

/-- Witness for C18: the offset `0x8001` (bit 15 set) gives `0x80010000`. -/
theorem lui_upper_half_witness :
    (ALU 5 (sign_extend 0x8001) '6' 0).1 = 0x8001 * 2 ^ 16 :=
  (lui_upper_half 0x8001 5 0 0 0 '0' (by decide)).1

/-- C19. For a PC that is a multiple of 4 and below 65536, `instruction_fetch` returns 0 and
sets the instruction to the word at index `PC / 4`, which is below `MEMSIZE = 16384`. The
memory is only read: it is not among the outputs of the call. -/
theorem instruction_fetch_valid (PC : Nat) (Mem : Nat → Nat) (instruction : Nat)
    (h4 : PC % 4 = 0) (hlt : PC < 65536) :
    instruction_fetch PC Mem instruction = (0, Mem (PC / 4)) ∧ PC / 4 < MEMSIZE := by
  refine ⟨instruction_fetch_aligned PC Mem instruction h4 (by omega), ?_⟩
  unfold MEMSIZE
  omega

/-- Witness for C19: `PC = 0x4000` over a memory of zero words. -/
theorem instruction_fetch_valid_witness :
    instruction_fetch 0x4000 (fun _ => 0) 5 = (0, 0) ∧ 0x4000 / 4 < MEMSIZE :=
  instruction_fetch_valid 0x4000 (fun _ => 0) 5 (by decide) (by decide)

/-- C20. For each accepted opcode other than 2 and 4 (0, 8, 10, 11, 15, 35, 43), `PC_update` fed
with the `Jump` and `Branch` signals of `instruction_decode` gives `(PC + 4) mod 2^32` for every
PC, `Zero`, jump field and extended value; opcode 11, whose `Branch` is `'2'`, is included. -/
theorem PC_update_sequential (op jsec extended_value PC : Nat) (Zero : Char)
    (controls : struct_controls)
    (hop : op = 0 ∨ op = 8 ∨ op = 10 ∨ op = 11 ∨ op = 15 ∨ op = 35 ∨ op = 43) :
    PC_update jsec extended_value (instruction_decode op controls).2.Branch
      (instruction_decode op controls).2.Jump Zero PC = (PC + 4) % 2 ^ 32 := by
  have c01 : ¬ (('0' : Char) = '1') := by decide
  have c21 : ¬ (('2' : Char) = '1') := by decide
  rcases hop with h | h | h | h | h | h | h <;> subst h <;>
    simp [instruction_decode, PC_update, WORD, c01, c21]

/-- Witness for C20: opcode 11 with `Zero = '1'` at `PC = 0x4000` moves to `0x4004`. -/
theorem PC_update_sequential_witness :
    PC_update 7 9 (instruction_decode 11 controls0).2.Branch
      (instruction_decode 11 controls0).2.Jump '1' 0x4000 = (0x4000 + 4) % 2 ^ 32 :=
  PC_update_sequential 11 7 9 0x4000 '1' controls0 (by decide)

/-- C21. The assembler's branch offset and the simulator's branch target agree: for
word-aligned addresses `s` (the beq instruction) and `t` (the label) in the range of an `int`
with `-32768 <= (t - s - 4) / 4 <= 32767`, the 16-bit field `calculate_offset(s, t) & 0xFFFF`,
passed through `sign_extend` and then `PC_update` with `PC = s`, `Branch = '1'`, `Zero = '1'`,
`Jump = '0'`, sets the PC to `t`; that field is the offset `instruction_partition` reads back
from the word `print_output` writes for the beq record. -/
theorem branch_offset_agrees (s t jsec r1 r2 : Nat) (hs4 : s % 4 = 0) (ht4 : t % 4 = 0)
    (_hs : s + 4 < 2 ^ 31) (ht : t < 2 ^ 31) (h1 : r1 < 32) (h2 : r2 < 32)
    (hlo : -32768 ≤ ((t : Int) - s - 4) / 4) (hhi : ((t : Int) - s - 4) / 4 ≤ 32767) :
    PC_update jsec (sign_extend (Int.land (calculate_offset s t) 0xFFFF).toNat) '1' '0' '1' s = t ∧
    (instruction_partition (print_output_word (beq_record s r1 r2 t))).offset =
      (Int.land (calculate_offset s t) 0xFFFF).toNat ∧
    PC_update (instruction_partition (print_output_word (beq_record s r1 r2 t))).jsec
      (sign_extend (instruction_partition (print_output_word (beq_record s r1 r2 t))).offset)
      '1' '0' '1' s = t := by
  obtain ⟨hk, hk4⟩ := calculate_offset_aligned s t hs4 ht4
  have hlo1 : -32768 ≤ calculate_offset s t := by rw [hk]; exact hlo
  have hhi1 : calculate_offset s t ≤ 32767 := by rw [hk]; exact hhi
  have hext := sign_extend_field (calculate_offset s t) hlo1 hhi1
  have hfield : (Int.land (calculate_offset s t) 0xFFFF).toNat < 65536 := by
    rw [int_land_65535]
    omega
  have hoff := (instruction_partition_itype 4 r1 r2 _ h1 h2 hfield).2.2.2
  rw [← print_output_word_beq s t r1 r2 h1 h2] at hoff
  have c01 : ¬ (('0' : Char) = '1') := by decide
  have key : ∀ j, PC_update j (sign_extend (Int.land (calculate_offset s t) 0xFFFF).toNat)
      '1' '0' '1' s = t := by
    intro j
    simp only [PC_update, c01, if_false, and_self, if_true, WORD, Nat.shiftLeft_eq]
    norm_num
    omega
  refine ⟨key jsec, hoff, ?_⟩
  rw [hoff]
  exact key _

/-- Witness for C21: a backward branch from `s = 0x4010` to the label at `t = 0x4000`
(offset -5). -/
theorem branch_offset_agrees_witness :
    PC_update 0 (sign_extend (Int.land (calculate_offset (0x4010 : Nat) (0x4000 : Nat))
      0xFFFF).toNat) '1' '0' '1' 0x4010 = 0x4000 :=
  (branch_offset_agrees 0x4010 0x4000 0 1 2 (by decide) (by decide) (by decide) (by decide)
    (by decide) (by decide) (by decide) (by decide)).1

/-- C22. The assembler's jump encoding and the simulator's jump agree: for a label address `t`
that is a multiple of 4 below `2^28` and a PC below 65536, the word `print_output` writes for
the jump record (`op = 2`, other fields 0, `jsec = t`) partitions into opcode 2 and jump field
`t / 4`, and `PC_update` with `Jump = '1'` on that field sets the PC to `t`. -/
theorem jump_encoding_agrees (address : Int) (t PC extended_value : Nat) (Branch Zero : Char)
    (ht4 : t % 4 = 0) (ht : t < 2 ^ 28) (hpc : PC < 65536) :
    print_output [jump_record address t] = [2 * 2 ^ 26 + t / 4] ∧
    (instruction_partition (print_output_word (jump_record address t))).op = 2 ∧
    (instruction_partition (print_output_word (jump_record address t))).jsec = t / 4 ∧
    PC_update (instruction_partition (print_output_word (jump_record address t))).jsec
      extended_value Branch '1' Zero PC = t := by
  have hw := print_output_word_jump address t ht
  have hm := and_high_mask_of_lt PC (by omega)
  have hj : (instruction_partition (2 * 2 ^ 26 + t / 4)).jsec = t / 4 := by
    simp only [instruction_partition, and_jsec_mask_eq_mod]
    omega
  refine ⟨?_, ?_, ?_, ?_⟩
  · simp only [print_output, List.map, hw]
  · rw [hw]
    simp only [instruction_partition, Nat.shiftRight_eq_div_pow]
    omega
  · rw [hw]
    exact hj
  · rw [hw, hj]
    simp only [PC_update, if_true, hm, WORD, Nat.shiftLeft_eq]
    omega

/-- Witness for C22: a jump to the label at `0x4008` from `PC = 0x4000`. -/
theorem jump_encoding_agrees_witness :
    PC_update (instruction_partition (print_output_word (jump_record 0x4000 (0x4008 : Nat)))).jsec
      0 '0' '1' '0' 0x4000 = 0x4008 :=
  (jump_encoding_agrees 0x4000 0x4008 0x4000 0 '0' '0' (by decide) (by decide)
    (by decide)).2.2.2

/-- C23. `PC_update` preserves alignment: for a PC that is a multiple of 4 and every `jsec`,
`extended_value`, `Branch`, `Jump` and `Zero`, the PC after the update is a multiple of 4. -/
theorem PC_update_aligned (jsec extended_value PC : Nat) (Branch Jump Zero : Char)
    (h4 : PC % 4 = 0) :
    PC_update jsec extended_value Branch Jump Zero PC % 4 = 0 := by
  have hm := and_high_mask_mod_four PC
  unfold PC_update WORD
  simp only [Nat.shiftLeft_eq]
  split_ifs <;> omega

/-- Witness for C23: a jump from `PC = 0x4000` with jump field 5 lands on a multiple of 4. -/
theorem PC_update_aligned_witness :
    PC_update 5 7 '0' '1' '0' 0x4000 % 4 = 0 :=
  PC_update_aligned 5 7 0x4000 '0' '1' '0' (by decide)

/-- C24. For every 32-bit instruction word, `instruction_partition` yields `r1, r2, r3 <= 31`,
`op <= 63`, `funct <= 63`, `offset <= 65535` and `jsec < 2^26`; so `read_register` on the
partitioned indices depends only on the 32 entries of the register file, and
`write_register` on them changes no entry outside these 32. -/
theorem instruction_partition_bounds (instruction : Nat) (h : instruction < 2 ^ 32) :
    (instruction_partition instruction).r1 ≤ 31 ∧
    (instruction_partition instruction).r2 ≤ 31 ∧
    (instruction_partition instruction).r3 ≤ 31 ∧
    (instruction_partition instruction).op ≤ 63 ∧
    (instruction_partition instruction).funct ≤ 63 ∧
    (instruction_partition instruction).offset ≤ 65535 ∧
    (instruction_partition instruction).jsec < 2 ^ 26 ∧
    (∀ Reg Reg1 : Nat → Nat, (∀ i, i < 32 → Reg i = Reg1 i) →
      read_register (instruction_partition instruction).r1
          (instruction_partition instruction).r2 Reg =
        read_register (instruction_partition instruction).r1
          (instruction_partition instruction).r2 Reg1) ∧
    (∀ (memdata ALUresult : Nat) (RegWrite RegDst MemtoReg : Char) (Reg : Nat → Nat) (i : Nat),
      32 ≤ i →
      write_register (instruction_partition instruction).r2
          (instruction_partition instruction).r3 memdata ALUresult RegWrite RegDst MemtoReg
          Reg i = Reg i) := by
  have b1 : (instruction_partition instruction).r1 ≤ 31 := by
    simp only [instruction_partition, Nat.shiftRight_eq_div_pow, and_31_eq_mod]
    omega
  have b2 : (instruction_partition instruction).r2 ≤ 31 := by
    simp only [instruction_partition, Nat.shiftRight_eq_div_pow, and_31_eq_mod]
    omega
  have b3 : (instruction_partition instruction).r3 ≤ 31 := by
    simp only [instruction_partition, Nat.shiftRight_eq_div_pow, and_31_eq_mod]
    omega
  refine ⟨b1, b2, b3, ?_, ?_, ?_, ?_, ?_, ?_⟩
  · simp only [instruction_partition, Nat.shiftRight_eq_div_pow]
    omega
  · simp only [instruction_partition, and_63_eq_mod]
    omega
  · simp only [instruction_partition, and_65535_eq_mod]
    omega
  · simp only [instruction_partition, and_jsec_mask_eq_mod]
    omega
  · intro Reg Reg1 hagree
    simp only [read_register]
    rw [hagree _ (by omega), hagree _ (by omega)]
  · intro memdata ALUresult RegWrite RegDst MemtoReg Reg i hi
    have n2 : i ≠ (instruction_partition instruction).r2 := by omega
    have n3 : i ≠ (instruction_partition instruction).r3 := by omega
    unfold write_register
    split_ifs <;> first | rfl | exact Function.update_noteq n2 _ _ | exact Function.update_noteq n3 _ _

/-- Witness for C24: the word `0xFFFFFFFF` partitions into the largest value of each field. -/
theorem instruction_partition_bounds_witness :
    (instruction_partition 0xFFFFFFFF).r1 ≤ 31 ∧
    (instruction_partition 0xFFFFFFFF).r2 ≤ 31 ∧
    (instruction_partition 0xFFFFFFFF).r3 ≤ 31 ∧
    (instruction_partition 0xFFFFFFFF).op ≤ 63 :=
  have h := instruction_partition_bounds 0xFFFFFFFF (by decide)
  ⟨h.1, h.2.1, h.2.2.1, h.2.2.2.1⟩

end MipsSim
